import Mathlib

/-!
Shallow embedding of the `asymmetric-io-mutex` package (class `IOMutex`).

The lock word is a single signed 32-bit integer at offset 0 of the shared
buffer: `0` = unlocked, `N > 0` = N concurrent readers, `-1` = one exclusive
writer.  The atomic operations (`Atomics.load`, `Atomics.compareExchange`,
`Atomics.sub`, `Atomics.store`) are modelled as pure state transformers over
the word, sequentialised: within one modelled operation no other thread
mutates the word, so a load followed by a compare-and-swap sees the same
value.  `Atomics.wait` / `Atomics.notify` and the cooperative sleeps have no
effect on the word and are dropped from the model.  Lock words stay far from
the 32-bit bounds in every behaviour considered here, so the word is an
unbounded `Int`.
-/

namespace IOMutexModel

/-- Operation mode of the mutex: `r` (read) or `w` (write) in the source. -/
inductive MutexMode where
  | read
  | write
deriving Repr, DecidableEq

/-- Value of an unlocked word (`IOMutex.UNLOCKED_VALUE`). -/
def UNLOCKED_VALUE : Int := 0

/-- Amount one reader adds to the word (`IOMutex.READ_LOCK_VALUE`). -/
def READ_LOCK_VALUE : Int := 1

/-- Value of a write-locked word (`IOMutex.WRITE_LOCK_VALUE`). -/
def WRITE_LOCK_VALUE : Int := -1

/-- Sentinel for an unassigned array index or position (`IOMutex.UNASSIGNED_VALUE`). -/
def UNASSIGNED_VALUE : Int := -1

/-- 32-bit length of the lock element (`IOMutex.LOCK_LENGTH`). -/
def LOCK_LENGTH : Nat := 1

/-- 32-bit index of the buffer lock position (`IOMutex.LOCK_POS`). -/
def LOCK_POS : Int := 0

/-- 32-bit starting index of the meta field array (`IOMutex.META_START_POS =
LOCK_POS + LOCK_LENGTH`). -/
def META_START_POS : Int := LOCK_POS + LOCK_LENGTH

/-- `Atomics.compareExchange(view, 0, expected, replacement)` on a word holding
`word`: returns the old value and the resulting word.  The exchange happens
iff the old value equals `expected`. -/
def compareExchange (word expected replacement : Int) : Int × Int :=
  if word = expected then (word, replacement) else (word, word)

/-- The bounded retry loop of `IOMutex.lock(scope, mode, maxTries)`, modelled
with the lock word as explicit state and no interference from other threads
(the word only changes through this call's own compare-and-swap).  Each
iteration mirrors one pass of the source's `while (retries < maxTries)` loop:
in read mode, a loaded value `>= 0` is compare-and-swapped to `value + 1`
(sequentially this cannot fail); otherwise the word is compare-and-swapped
from `0` to `-1`; on compare-and-swap failure the loop waits and retries.
Returns the resolved boolean and the final word. -/
def lockLoop (mode : MutexMode) : Nat → Int → Bool × Int
  | 0, word => (false, word)
  | Nat.succ n, word =>
    let curValue := word
    if mode = MutexMode.read ∧ 0 ≤ curValue then
      (true, curValue + READ_LOCK_VALUE)
    else
      let cas := compareExchange word UNLOCKED_VALUE WRITE_LOCK_VALUE
      if cas.fst = UNLOCKED_VALUE then (true, cas.snd)
      else lockLoop mode n word

/-- Result of `IOMutex.unlock`: the returned boolean, the resulting lock word,
and whether an invariant-violation error was logged. -/
structure UnlockResult where
  ret : Bool
  word : Int
  violation : Bool
deriving Repr, DecidableEq

/-- `IOMutex.unlock(scope, mode)` on a word holding `word`.  For read mode the
word is atomically decremented (`Atomics.sub` returns the pre-decrement
value); a pre-decrement value `<= 0` is an invariant violation that stores `0`
into the word and logs an error; a pre-decrement value other than `1` returns
`false` with no further action on the word; otherwise the call returns `true`.
For write mode the word is compare-and-swapped from `-1` to `0`; a failed
exchange is a logged invariant violation and the call still returns `true`. -/
def unlock (mode : MutexMode) (word : Int) : UnlockResult :=
  match mode with
  | MutexMode.read =>
    let prevReaders := word
    let decremented := word - READ_LOCK_VALUE
    if prevReaders ≤ 0 then
      { ret := true, word := 0, violation := true }
    else if prevReaders ≠ READ_LOCK_VALUE then
      { ret := false, word := decremented, violation := false }
    else
      { ret := true, word := decremented, violation := false }
  | MutexMode.write =>
    let cas := compareExchange word WRITE_LOCK_VALUE UNLOCKED_VALUE
    if cas.fst ≠ WRITE_LOCK_VALUE then
      { ret := true, word := cas.snd, violation := true }
    else
      { ret := true, word := cas.snd, violation := false }

/-- `IOMutex.executeWithLock(scope, mode, f)`, modelled over the lock word and
the `_lockScope[scope][mode]` boolean of the instance.  The body either
returns a value (`Except.ok`) or throws (`Except.error`).  Output: the overall
outcome (`Except.ok none` models the `return` of `undefined` taken when the
lock could not be acquired), the resulting word, and the resulting
`_lockScope` flag.  The source has no try/finally around `f()`: a thrown
exception propagates before the unlock statement is reached. -/
def executeWithLock {α : Type} (mode : MutexMode) (holds : Bool) (word : Int)
    (body : Except Unit α) : Except Unit (Option α) × Int × Bool :=
  if holds then
    match body with
    | Except.ok a => (Except.ok (some a), word, holds)
    | Except.error e => (Except.error e, word, holds)
  else
    let lockResult := lockLoop mode 50 word
    if lockResult.fst = false then
      (Except.ok none, lockResult.snd, false)
    else
      match body with
      | Except.error e => (Except.error e, lockResult.snd, true)
      | Except.ok a =>
        let u := unlock mode lockResult.snd
        (Except.ok (some a), u.word, false)

/-!
Buffer-layout model.  `MutexState` carries the layout bookkeeping of an
`IOMutex` instance: the bound buffer (by its byte length), the buffer start
offset, the output metadata entry (`_outputMeta`), the output data list
(`_outputData`) and `_outputDataFieldsLen`.  Typed-array views are modelled
as word-offset/length descriptors into the master buffer; buffer contents are
modelled separately (`C8` below) where a claim needs them.
-/

/-- A metadata/data field descriptor (`MutexMetaField`): name, 32-bit length,
32-bit position (or `-1` when unassigned), and the element width in bytes of
its typed-array constructor (`constructor.BYTES_PER_ELEMENT`). -/
structure MutexMetaField where
  name : String
  length : Nat
  position : Int
  bytesPerElement : Nat
deriving Repr, DecidableEq

/-- A typed-array view over the master buffer, as a 32-bit word offset and a
32-bit element count. -/
structure ViewDesc where
  offset : Int
  length : Nat
deriving Repr, DecidableEq

/-- One entry of `_outputData.arrays`: stored length (field prefix plus
payload), 32-bit position, and the live view if one is built. -/
structure DataArrayDesc where
  length : Nat
  position : Int
  view : Option ViewDesc
deriving Repr, DecidableEq

/-- `_outputData` (`ArrayBufferList`): the data arrays, the per-array field
prefix, and the recorded length and position. -/
structure OutputDataList where
  arrays : List DataArrayDesc
  fields : List MutexMetaField
  length : Int
  position : Int
deriving Repr, DecidableEq

/-- Layout state of an `IOMutex` instance. `buffer` is the byte length of the
bound `SharedArrayBuffer` (or `none`), `bufferStart` is `_BUFFER_START`,
`metaFields`/`metaLength`/`metaPosition`/`metaView` are the components of
`_outputMeta`, and `writeLockView` is `_writeLock.view`. -/
structure MutexState where
  buffer : Option Nat
  bufferStart : Int
  writeLockView : Option ViewDesc
  metaFields : List MutexMetaField
  metaLength : Nat
  metaPosition : Int
  metaView : Option ViewDesc
  outputData : Option OutputDataList
  outputDataFieldsLen : Nat
deriving Repr, DecidableEq

/-- State of a freshly constructed `IOMutex` (no meta/data fields given): the
constructor sets `_outputMeta` to an empty entry at `META_START_POS` and
leaves everything else unbound. -/
def emptyState : MutexState where
  buffer := none
  bufferStart := 0
  writeLockView := none
  metaFields := []
  metaLength := 0
  metaPosition := META_START_POS
  metaView := none
  outputData := none
  outputDataFieldsLen := 0

/-- `fields.reduce((total, f) => total + f.length, 0)`. -/
def sumLen (fields : List MutexMetaField) : Nat :=
  fields.foldl (fun total f => total + f.length) 0

/-- `isAllowedTypeConstructor` holding for every field: each field's
typed-array constructor must use a 4-byte element size. -/
def allWidth4 (fields : List MutexMetaField) : Bool :=
  fields.all (fun f => f.bytesPerElement == 4)

/-- `arrays.reduce((total, a) => total + _outputDataFieldsLen + a.length, 0)`,
the capacity contribution of the data arrays used by the layout checks. -/
def arraysCapacity (fieldsLen : Nat) (arrays : List DataArrayDesc) : Int :=
  arrays.foldl (fun total a => total + (fieldsLen : Int) + (a.length : Int)) 0

/-- `Math.max(...metaFields.map(f => f.position + f.length))` with `none`
standing for the `-Infinity` produced by `Math.max()` on an empty list. -/
def maxFieldEnd (fields : List MutexMetaField) : Option Int :=
  fields.foldl
    (fun m f =>
      match m with
      | none => some (f.position + (f.length : Int))
      | some v => some (max v (f.position + (f.length : Int))))
    none

/-- The end index computed by `initialize` after the buffer start has been
set: `_BUFFER_START + Math.max(...)`, plus `arrays.length * fieldsLen` when
`_outputData` exists.  `none` models `-Infinity`. -/
def initRequiredEnd (st : MutexState) : Option Int :=
  let base := (maxFieldEnd st.metaFields).map (fun v => st.bufferStart + v)
  match st.outputData with
  | none => base
  | some od => base.map (fun v => v + (od.arrays.length : Int) * (sumLen od.fields : Int))

/-- `buffer.byteLength < endIndex`, where a `none` end index (`-Infinity`)
makes the comparison false. -/
def bufferTooSmall (byteLength : Nat) (endIndex : Option Int) : Bool :=
  match endIndex with
  | none => false
  | some v => (byteLength : Int) < v

/-- `IOMutex.initialize(buffer, startPosition)`.  Re-initialisation fails
immediately.  Otherwise a non-negative `startPosition` is stored into
`_BUFFER_START` before anything is checked; then the buffer's byte length is
compared against the computed end index and the call fails if it is smaller;
on success the buffer is bound, the lock view is built (and the lock word
zeroed) and the meta view is built when meta fields exist (the sentinel
empty-value writes into the buffer contents are outside this state model). -/
def initMutex (st : MutexState) (byteLength : Nat) (startPosition : Int) :
    Bool × MutexState :=
  if st.buffer.isSome then (false, st)
  else
    let st := if 0 ≤ startPosition then { st with bufferStart := startPosition } else st
    if bufferTooSmall byteLength (initRequiredEnd st) then (false, st)
    else
      let st := { st with
        buffer := some byteLength,
        writeLockView := some { offset := st.bufferStart + LOCK_POS, length := LOCK_LENGTH } }
      let st :=
        if st.metaFields ≠ [] then
          { st with metaView := some { offset := st.bufferStart + META_START_POS, length := st.metaLength } }
        else st
      (true, st)

/-- The `field.position === UNASSIGNED_VALUE` loop shared by `setDataFields`:
walks the fields accumulating `fieldPos` by each field's length, assigning
`fieldPos` to any field whose position is unassigned; returns the updated
fields and the final `fieldPos` (the total length of the fields). -/
def assignFieldPositions : List MutexMetaField → Int → List MutexMetaField × Int
  | [], pos => ([], pos)
  | f :: rest, pos =>
    let f' := if f.position = UNASSIGNED_VALUE then { f with position := pos } else f
    let tail := assignFieldPositions rest (pos + (f.length : Int))
    (f' :: tail.fst, tail.snd)

/-- The data-array repositioning loop at the end of `setDataFields`: when a
buffer is bound, each array's position is reset to the running `arrayPos` and
its view rebuilt at `dataPos + position`; `arrayPos` advances by
`fieldPos + array.length`.  Without a buffer nothing changes and `arrayPos`
stays put.  Returns the updated arrays and the final `arrayPos`. -/
def repositionArrays (hasBuffer : Bool) (dataPos fieldPos : Int) :
    List DataArrayDesc → Int → List DataArrayDesc × Int
  | [], arrayPos => ([], arrayPos)
  | a :: rest, arrayPos =>
    if hasBuffer then
      let a' := { a with
        position := arrayPos,
        view := some { offset := dataPos + arrayPos, length := a.length } }
      let tail := repositionArrays hasBuffer dataPos fieldPos rest (arrayPos + fieldPos + (a.length : Int))
      (a' :: tail.fst, tail.snd)
    else
      let tail := repositionArrays hasBuffer dataPos fieldPos rest arrayPos
      (a :: tail.fst, tail.snd)

/-- The common tail of `setDataFields` (from the "Set field positions" comment
on): assigns unassigned data-field positions, repositions the data arrays and
stores the final `arrayPos` into `_outputData.length`, then returns `true`.
At this point `_outputData` is always set. -/
def setDataFieldsFinish (st : MutexState) : Bool × MutexState :=
  match st.outputData with
  | none => (true, st)
  | some od =>
    let assigned := assignFieldPositions od.fields 0
    let dataPos := st.bufferStart + META_START_POS + (st.metaLength : Int)
    let repositioned := repositionArrays st.buffer.isSome dataPos assigned.snd od.arrays 0
    (true, { st with outputData := some { od with
        fields := assigned.fst,
        arrays := repositioned.fst,
        length := repositioned.snd } })

/-- `IOMutex.setDataFields(fields?)`.  With no argument the existing data
fields are re-processed (failing only when none exist).  With fields: their
element widths are validated, `_outputDataFieldsLen` is updated (note: before
the capacity check, so a failing check leaves it mutated, as in the source),
`_outputData` is created on first use or its fields replaced after a capacity
check when a buffer is bound, and the common tail runs. -/
def setDataFields (st : MutexState) (fieldsArg : Option (List MutexMetaField)) :
    Bool × MutexState :=
  match fieldsArg with
  | none =>
    if st.outputData.isNone then (false, st)
    else setDataFieldsFinish st
  | some fs =>
    if ¬ allWidth4 fs then (false, st)
    else
      let fieldsLen := sumLen fs
      let st := { st with outputDataFieldsLen := fieldsLen }
      match st.outputData with
      | none =>
        setDataFieldsFinish { st with outputData := some {
          arrays := [],
          fields := fs,
          length := (fieldsLen : Int),
          position := META_START_POS + (st.metaLength : Int) } }
      | some od =>
        let capacityOk : Bool :=
          match st.buffer with
          | none => true
          | some byteLength =>
            let totalLen : Int := META_START_POS + (st.metaLength : Int) +
              arraysCapacity st.outputDataFieldsLen od.arrays
            ¬ ((st.bufferStart + totalLen) * 4 > (byteLength : Int))
        if ¬ capacityOk then (false, st)
        else setDataFieldsFinish { st with outputData := some { od with fields := fs } }

/-- `IOMutex.setMetaFields(fields)`: validates every field's element width,
and when a buffer is bound checks that the new total length still fits; then
stores the fields and their summed length into `_outputMeta`, rebuilds the
meta view when a buffer is bound, and re-runs `setDataFields()` (ignoring its
result) when `_outputData` exists.  Positions of the supplied meta fields are
left exactly as given. -/
def setMetaFields (st : MutexState) (fields : List MutexMetaField) :
    Bool × MutexState :=
  if ¬ allWidth4 fields then (false, st)
  else
    let metaLen := sumLen fields
    let capacityOk : Bool :=
      match st.buffer with
      | none => true
      | some byteLength =>
        let totalLen : Int := META_START_POS + (metaLen : Int) +
          (match st.outputData with
           | some od => arraysCapacity st.outputDataFieldsLen od.arrays
           | none => 0)
        ¬ ((st.bufferStart + totalLen) * 4 > (byteLength : Int))
    if ¬ capacityOk then (false, st)
    else
      let st := { st with metaFields := fields, metaLength := metaLen }
      let st :=
        if st.buffer.isSome then
          { st with metaView := some { offset := META_START_POS, length := metaLen } }
        else st
      let st := if st.outputData.isSome then (setDataFields st none).snd else st
      (true, st)

/-- `IOMutex.setDataArrays(dataArrays)` where each requested array is given by
its payload length.  Requires a bound buffer and initialized `_outputData`;
checks capacity against the requested lengths; then replaces the arrays, each
slot sized `_outputDataFieldsLen + length` and placed sequentially after the
metadata block, with a view built at `BUFFER_START + position`. -/
def buildDataArrays (fieldsLen : Nat) (bufferStart : Int) :
    List Nat → Int → List DataArrayDesc
  | [], _ => []
  | len :: rest, arrayPos =>
    { length := fieldsLen + len,
      position := arrayPos,
      view := some { offset := bufferStart + arrayPos, length := fieldsLen + len } }
      :: buildDataArrays fieldsLen bufferStart rest (arrayPos + (fieldsLen : Int) + (len : Int))

/-- `IOMutex.setDataArrays`; see `buildDataArrays` for the allocation loop. -/
def setDataArrays (st : MutexState) (dataArrays : List Nat) : Bool × MutexState :=
  match st.buffer, st.outputData with
  | none, _ => (false, st)
  | some _, none => (false, st)
  | some byteLength, some od =>
    let totalLen : Int := META_START_POS + (st.metaLength : Int) +
      dataArrays.foldl (fun total len => total + (st.outputDataFieldsLen : Int) + (len : Int)) 0
    if (st.bufferStart + totalLen) * 4 > (byteLength : Int) then (false, st)
    else
      let arrays := buildDataArrays st.outputDataFieldsLen st.bufferStart dataArrays
        (META_START_POS + (st.metaLength : Int))
      (true, { st with outputData := some { od with arrays := arrays } })

/-- `IOMutex.totalLength`: `META_START_POS + _outputMeta.length` plus the sum
of the stored data array lengths. -/
def totalLength (st : MutexState) : Int :=
  META_START_POS + (st.metaLength : Int) +
    (match st.outputData with
     | some od => od.arrays.foldl (fun total a => total + (a.length : Int)) 0
     | none => 0)

/-- The buffer word index on which the meta branch of
`IOMutex.waitForFieldUpdate('meta', fieldIndex)` parks its `Atomics.wait`:
after the guards (buffer bound, meta view built, index in range) it waits on
`new Int32Array(this._buffer)` at index `BUFFER_START + metaField.position`. -/
def waitForMetaFieldWordIndex (st : MutexState) (fieldIndex : Nat) : Option Int :=
  if st.buffer.isNone then none
  else if st.metaView.isNone then none
  else
    match st.metaFields.get? fieldIndex with
    | none => none
    | some f => some (st.bufferStart + f.position)

/-- `fields.find(f => f.name === name)`. -/
def findMetaField (fields : List MutexMetaField) (fieldName : String) :
    Option MutexMetaField :=
  fields.find? (fun f => f.name == fieldName)

/-- The buffer word index that `_setOutputMetaFieldValue` notifies after
writing a meta field: `Atomics.notify(new Int32Array(this._buffer),
this._outputMeta.position + field.position)`. -/
def notifyMetaFieldWordIndex (st : MutexState) (fieldName : String) : Option Int :=
  match findMetaField st.metaFields fieldName with
  | none => none
  | some f => some (st.metaPosition + f.position)

/-- An initialized mutex with one meta field of length 1 at position 0, built
by `setMetaFields` on a fresh instance followed by `initialize` with a
64-byte buffer at start position 0. -/
def metaWaitState : MutexState :=
  (initMutex (setMetaFields emptyState
    [{ name := "a", length := 1, position := 0, bytesPerElement := 4 }]).snd 64 0).snd

/-!
Buffer-content model for the field getters (`C8`).  The master buffer is a
list of 32-bit words; `TypedNumberArray.subarray` yields a view described by
a word offset and length into the same buffer, and `view.set` writes through
such a view.  Offsets arising in the claims are non-negative, so view offsets
are naturals here.
-/

/-- A typed-array (sub)view into the shared buffer: word offset and length.
Both branches of the getter's constructor check (`subarray` for `Int32Array`,
`new field.constructor(value.buffer, value.byteOffset, ...)` otherwise) yield
a view over the same buffer region, so one descriptor covers both. -/
structure SubView where
  offset : Nat
  length : Nat
deriving Repr, DecidableEq

/-- Read word `i` of the buffer (0 beyond the end). -/
def readWord (buf : List Int) (i : Nat) : Int :=
  buf.getD i 0

/-- Read element `i` through a view: the view aliases the buffer, so this is
a read of the underlying buffer at `offset + i`. -/
def viewRead (buf : List Int) (v : SubView) (i : Nat) : Int :=
  readWord buf (v.offset + i)

/-- `view.set(values, start)` relative to word index `i` of the buffer:
writes the values at consecutive indices starting at `i`. -/
def writeWords : List Int → Nat → List Int → List Int
  | buf, _, [] => buf
  | buf, i, x :: xs => writeWords (buf.set i x) (i + 1) xs

/-- The body of `_getMetaFieldValue` run under the read lock: finds the field
by name and returns `metaView.subarray(position, position + length)` — a view
aliasing the shared buffer, not a copy. -/
def getMetaFieldValueView (fields : List MutexMetaField) (metaView : SubView)
    (fieldName : String) : Option SubView :=
  match findMetaField fields fieldName with
  | none => none
  | some f => some { offset := metaView.offset + f.position.toNat, length := f.length }

/-- The buffer write performed by `_setOutputMetaFieldValue` under the write
lock: finds the field, checks the value arity against the field's length, and
writes the values through the meta view at the field's position. -/
def setMetaFieldValueWrite (buf : List Int) (metaView : SubView)
    (fields : List MutexMetaField) (fieldName : String) (values : List Int) :
    Option (List Int) :=
  match findMetaField fields fieldName with
  | none => none
  | some f =>
    if values.length = f.length then
      some (writeWords buf (metaView.offset + f.position.toNat) values)
    else none

/-!
Coupling-import model (`C10`).  `MutexExportProperties` is the view-free
descriptor produced by `propertiesForCoupling`; `setInputMutexProperties`
builds the input-side views of the consumer over the exporter's buffer.
-/

/-- One exported data-array descriptor: length and position. -/
structure ImportArrayDesc where
  length : Nat
  position : Int
deriving Repr, DecidableEq

/-- The exported `data` part of the descriptor. -/
structure ImportDataProps where
  arrays : List ImportArrayDesc
  fields : List MutexMetaField
deriving Repr, DecidableEq

/-- The exported `meta` part of the descriptor. -/
structure ImportMetaProps where
  fields : List MutexMetaField
  length : Nat
  position : Int
deriving Repr, DecidableEq

/-- The exported descriptor (`MutexExportProperties`): the buffer reference
(modelled by its byte length, `none` for `null`), the buffer start, and the
data and meta layouts. -/
structure MutexExportProps where
  buffer : Option Nat
  bufferStart : Int
  data : Option ImportDataProps
  meta : ImportMetaProps
deriving Repr, DecidableEq

/-- Input-side state of an instance: `_inputDataFields`, `_inputDataViews`
(sparse: unplaced slots hold `none`), `_readLockView`, `_inputMetaFields` and
`_inputMetaView`. -/
structure InputState where
  inputDataFields : List MutexMetaField
  inputDataViews : List (Option ViewDesc)
  readLockView : Option ViewDesc
  inputMetaFields : List MutexMetaField
  inputMetaView : Option ViewDesc
deriving Repr, DecidableEq

/-- JavaScript sparse assignment `views[i] = v`: overwrites slot `i`, padding
any holes before it with `none`. -/
def setViewAt : List (Option ViewDesc) → Nat → ViewDesc → List (Option ViewDesc)
  | [], 0, v => [some v]
  | [], Nat.succ n, v => none :: setViewAt [] n v
  | _ :: rest, 0, v => some v :: rest
  | x :: rest, Nat.succ n, v => x :: setViewAt rest n v

/-- The data-view import loop of `setInputMutexProperties`: for each exported
array with an assigned position, install a view at
`bufferStart + position`. -/
def importDataViews (bufferStart : Int) :
    List ImportArrayDesc → Nat → List (Option ViewDesc) → List (Option ViewDesc)
  | [], _, views => views
  | a :: rest, i, views =>
    let views :=
      if a.position ≠ UNASSIGNED_VALUE then
        setViewAt views i { offset := bufferStart + a.position, length := a.length }
      else views
    importDataViews bufferStart rest (i + 1) views

/-- `IOMutex.setInputMutexProperties(input)`: fails (returning `false`,
touching nothing) when the descriptor's buffer is `null`; otherwise binds the
read-lock view to the exporter's lock word, appends the exported meta and
data fields, builds the input meta view when the exported meta block is
placed and non-empty, installs the data views, and returns `true`. -/
def setInputMutexProperties (st : InputState) (input : MutexExportProps) :
    Bool × InputState :=
  match input.buffer with
  | none => (false, st)
  | some _ =>
    let st := { st with
      readLockView := some { offset := input.bufferStart + LOCK_POS, length := LOCK_LENGTH },
      inputMetaFields := st.inputMetaFields ++ input.meta.fields }
    let st := { st with
      inputMetaView :=
        if input.meta.position ≠ UNASSIGNED_VALUE ∧ input.meta.length ≠ 0 then
          some { offset := input.bufferStart + input.meta.position, length := input.meta.length }
        else none }
    let st :=
      match input.data with
      | none => st
      | some d =>
        { st with
          inputDataFields := st.inputDataFields ++ d.fields,
          inputDataViews := importDataViews input.bufferStart d.arrays 0 st.inputDataViews }
    (true, st)

/-- A fresh mutex carrying one meta field of length 3 at position 0
(`new IOMutex([...])`), not yet bound to a buffer. -/
def c5State : MutexState :=
  (setMetaFields emptyState
    [{ name := "a", length := 3, position := 0, bytesPerElement := 4 }]).snd

/-- Meta fields of the worked layout example: one field of length 2. -/
def demoMetaFields : List MutexMetaField :=
  [{ name := "m", length := 2, position := 0, bytesPerElement := 4 }]

/-- Data fields of the worked layout example: one field of length 1. -/
def demoDataFields : List MutexMetaField :=
  [{ name := "f", length := 1, position := 0, bytesPerElement := 4 }]

/-- Worked layout example: a fresh mutex bound to a 1000-byte buffer. -/
def demoState0 : MutexState := (initMutex emptyState 1000 0).snd

/-- Worked layout example after `setMetaFields`. -/
def demoState1 : MutexState := (setMetaFields demoState0 demoMetaFields).snd

/-- Worked layout example after `setDataFields`. -/
def demoState2 : MutexState := (setDataFields demoState1 (some demoDataFields)).snd

/-- Worked layout example after `setDataArrays` with two arrays of payload
length 10. -/
def demoState3 : MutexState := (setDataArrays demoState2 (List.replicate 2 10)).snd

/-- Input-side state of a freshly constructed instance: no fields, no views. -/
def emptyInputState : InputState where
  inputDataFields := []
  inputDataViews := []
  readLockView := none
  inputMetaFields := []
  inputMetaView := none

end IOMutexModel

namespace IOMutexModel

/-- Helper: a write-mode pass of the lock loop with a nonzero word fails and
leaves the word unchanged. -/
theorem lockLoop_write_stuck (w : Int) (hw : w ≠ 0) :
    ∀ n : Nat, lockLoop MutexMode.write n w = (false, w) := by
  intro n
  induction n with
  | zero => rfl
  | succ n ih =>
    simp only [lockLoop, compareExchange, UNLOCKED_VALUE, WRITE_LOCK_VALUE]
    simp [hw, ih]

/-- Helper: with the word write-locked at `-1`, the lock loop fails in either
mode and leaves the word unchanged. -/
theorem lockLoop_writeLocked_stuck (mode : MutexMode) :
    ∀ n : Nat, lockLoop mode n (-1) = (false, -1) := by
  intro n
  induction n with
  | zero => rfl
  | succ n ih =>
    simp only [lockLoop, compareExchange, UNLOCKED_VALUE, WRITE_LOCK_VALUE,
      READ_LOCK_VALUE]
    have h1 : ¬ (mode = MutexMode.read ∧ (0 : Int) ≤ -1) := by
      rintro ⟨-, h⟩; omega
    have h2 : (-1 : Int) ≠ 0 := by omega
    simp [h1, h2, ih]

/-- Claim C1: a write-mode `lock()` acquisition succeeds iff the lock word is
exactly `0` at compare-and-swap time, and the successful exchange transitions
the word from `0` to `-1`; while the word is `-1` (write-locked), every lock
attempt in either mode returns `false` once its retries are exhausted and
leaves the word at `-1`; after an explicit write unlock the word is `0` again
and a lock attempt in either mode succeeds. -/
theorem lock_write_iff_unlocked (w : Int) (n : Nat) (mode : MutexMode) (hn : 0 < n) :
    ((lockLoop MutexMode.write n w).fst = true ↔ w = 0) ∧
    (w = 0 → lockLoop MutexMode.write n w = (true, -1)) ∧
    (lockLoop mode n (-1) = (false, -1)) ∧
    ((lockLoop mode n (unlock MutexMode.write (-1)).word).fst = true) := by
  obtain ⟨m, rfl⟩ : ∃ m, n = m + 1 := ⟨n - 1, by omega⟩
  refine ⟨?_, ?_, lockLoop_writeLocked_stuck mode (m + 1), ?_⟩
  · constructor
    · intro h
      by_contra hw
      rw [lockLoop_write_stuck w hw] at h
      simp at h
    · intro hw
      subst hw
      simp [lockLoop, compareExchange, UNLOCKED_VALUE, WRITE_LOCK_VALUE]
  · intro hw
    subst hw
    simp [lockLoop, compareExchange, UNLOCKED_VALUE, WRITE_LOCK_VALUE]
  · have hword : (unlock MutexMode.write (-1)).word = 0 := by
      simp [unlock, compareExchange, UNLOCKED_VALUE, WRITE_LOCK_VALUE]
    rw [hword]
    cases mode with
    | read =>
      simp [lockLoop, READ_LOCK_VALUE]
    | write =>
      simp [lockLoop, compareExchange, UNLOCKED_VALUE, WRITE_LOCK_VALUE]

/-- Witness for C1 at concrete inputs: from `0` the write lock succeeds and
sets the word to `-1`; from `5` it fails; from `-1` read and write attempts
fail; after a write unlock of `-1` a read attempt succeeds. -/
theorem lock_write_iff_unlocked_witness :
    lockLoop MutexMode.write 3 0 = (true, -1) ∧
    (lockLoop MutexMode.write 3 5).fst ≠ true ∧
    lockLoop MutexMode.read 3 (-1) = (false, -1) ∧
    lockLoop MutexMode.write 3 (-1) = (false, -1) ∧
    (lockLoop MutexMode.read 3 (unlock MutexMode.write (-1)).word).fst = true := by
  have h0 := lock_write_iff_unlocked 0 3 MutexMode.read (by decide)
  have h5 := lock_write_iff_unlocked 5 3 MutexMode.write (by decide)
  have hr := lock_write_iff_unlocked (-1) 3 MutexMode.read (by decide)
  refine ⟨h0.2.1 rfl, ?_, hr.2.2.1, h5.2.2.1, hr.2.2.2⟩
  intro h
  exact absurd (h5.1.mp h) (by decide)

/-- Claim C2: `unlock()` in read mode decrements the word by one; if the
pre-decrement value was `<= 0` the word is force-reset to `0` and the
violation is logged; if the pre-decrement value was `> 1` the call returns
`false` and the word is left at the decremented value; if it was exactly `1`
the word becomes `0` and the call returns `true`. -/
theorem unlock_read_spec (w : Int) :
    (w ≤ 0 → unlock MutexMode.read w = { ret := true, word := 0, violation := true }) ∧
    (1 < w → unlock MutexMode.read w = { ret := false, word := w - 1, violation := false }) ∧
    (w = 1 → unlock MutexMode.read w = { ret := true, word := 0, violation := false }) := by
  refine ⟨?_, ?_, ?_⟩
  · intro h
    simp [unlock, READ_LOCK_VALUE, h]
  · intro h
    have h1 : ¬ (w ≤ 0) := by omega
    have h2 : w ≠ 1 := by omega
    simp [unlock, READ_LOCK_VALUE, h1, h2]
  · intro h
    subst h
    simp [unlock, READ_LOCK_VALUE]

/-- Witness for C2 at the concrete pre-decrement values `0`, `5` and `1`. -/
theorem unlock_read_spec_witness :
    unlock MutexMode.read 0 = { ret := true, word := 0, violation := true } ∧
    unlock MutexMode.read 5 = { ret := false, word := 4, violation := false } ∧
    unlock MutexMode.read 1 = { ret := true, word := 0, violation := false } :=
  ⟨(unlock_read_spec 0).1 (by decide),
   (unlock_read_spec 5).2.1 (by decide),
   (unlock_read_spec 1).2.2 rfl⟩

/-- Claim C9: `unlock()` in write mode on a word that is not `-1` leaves the
word unchanged, logs an invariant violation, and still returns `true`. -/
theorem unlock_write_notLocked (w : Int) (hw : w ≠ -1) :
    unlock MutexMode.write w = { ret := true, word := w, violation := true } := by
  simp [unlock, compareExchange, WRITE_LOCK_VALUE, UNLOCKED_VALUE, hw]

/-- Witness for C9 at the concrete word `3`. -/
theorem unlock_write_notLocked_witness :
    unlock MutexMode.write 3 = { ret := true, word := 3, violation := true } :=
  unlock_write_notLocked 3 (by decide)

/-- Counterexample to claim C3 as stated: with the instance not holding the
lock, the word unlocked at `0`, and a body that throws, `executeWithLock` in
write mode acquires the lock (word goes to `-1`) but never releases it — the
final word is `-1`, still write-locked, and the `_lockScope` flag is still
`true` — contradicting "releases it afterward regardless of body's outcome
(including when body throws)". -/
theorem executeWithLock_throw_leaves_locked :
    executeWithLock (α := Nat) MutexMode.write false 0 (Except.error ())
      = (Except.error (), -1, true) := by
  rfl

/-- Claim C3 (amended): if the instance already holds `(scope, mode)`, no
acquisition or release happens around the body (word and flag unchanged); if
it does not, the lock is acquired before the body runs and, when the body
returns normally, released afterwards (from an unlocked word the word returns
to `0` and the flag is cleared); but when the body throws, the exception
propagates before the unlock statement, so the lock acquired by this call is
not released (the word stays at the acquired value and the flag stays set). -/
theorem executeWithLock_spec (mode : MutexMode) (w : Int) (b : Except Unit Nat) (v : Nat) :
    (executeWithLock mode true w b
      = (match b with
         | Except.ok a => (Except.ok (some a), w, true)
         | Except.error e => (Except.error e, w, true))) ∧
    (executeWithLock mode false 0 (Except.ok v) = (Except.ok (some v), 0, false)) ∧
    (executeWithLock (α := Nat) mode false 0 (Except.error ())
      = (Except.error (), if mode = MutexMode.read then 1 else -1, true)) := by
  refine ⟨?_, ?_, ?_⟩
  · cases b <;> rfl
  · cases mode <;> rfl
  · cases mode <;> rfl

/-- Witness for C3 (amended) at concrete inputs. -/
theorem executeWithLock_spec_witness :
    (executeWithLock MutexMode.write true 7 (Except.ok 4) = (Except.ok (some 4), 7, true)) ∧
    (executeWithLock MutexMode.read false 0 (Except.ok 4) = (Except.ok (some 4), 0, false)) ∧
    (executeWithLock (α := Nat) MutexMode.read false 0 (Except.error ())
      = (Except.error (), 1, true)) := by
  have h := executeWithLock_spec MutexMode.read 7 (Except.ok 4) 4
  have h2 := executeWithLock_spec MutexMode.write 7 (Except.ok 4) 4
  exact ⟨h2.1, h.2.1, by simpa using h.2.2⟩

/-- Helper: folding addition of a projection over a list extracts to the sum
of the mapped list. -/
theorem foldl_add_map_sum {α : Type} (f : α → Int) :
    ∀ (l : List α) (init : Int),
      l.foldl (fun total a => total + f a) init = init + (l.map f).sum := by
  intro l
  induction l with
  | nil => intro init; simp
  | cons a t ih =>
    intro init
    simp only [List.foldl_cons, List.map_cons, List.sum_cons, ih]
    ring

/-- Helper: the lengths of the arrays allocated by `buildDataArrays` are the
requested payload lengths, each increased by the data-field prefix length. -/
theorem buildDataArrays_map_length (fieldsLen : Nat) (bufferStart : Int) :
    ∀ (ls : List Nat) (arrayPos : Int),
      (buildDataArrays fieldsLen bufferStart ls arrayPos).map (fun a => (a.length : Int))
        = ls.map (fun len => ((fieldsLen + len : Nat) : Int)) := by
  intro ls
  induction ls with
  | nil => intro arrayPos; rfl
  | cons x t ih => intro arrayPos; simp [buildDataArrays, ih]

/-- Helper: a successful `setDataArrays` makes the total length the metadata
start plus the metadata length plus the prefixed lengths of the requested
arrays. -/
theorem setDataArrays_totalLength (st st' : MutexState) (ls : List Nat)
    (h : setDataArrays st ls = (true, st')) :
    totalLength st' = META_START_POS + (st.metaLength : Int) +
      (ls.map (fun len => ((st.outputDataFieldsLen + len : Nat) : Int))).sum := by
  cases hb : st.buffer with
  | none =>
    unfold setDataArrays at h
    rw [hb] at h
    simp at h
  | some byteLength =>
    cases hd : st.outputData with
    | none =>
      unfold setDataArrays at h
      rw [hb, hd] at h
      simp at h
    | some od =>
      unfold setDataArrays at h
      rw [hb, hd] at h
      simp only [] at h
      split at h
      · simp at h
      · rw [Prod.mk.injEq] at h
        obtain ⟨-, rfl⟩ := h
        simp [totalLength, foldl_add_map_sum, buildDataArrays_map_length]

/-- Helper: the common tail of `setDataFields` never touches the metadata
fields. -/
theorem setDataFieldsFinish_metaFields (st : MutexState) :
    (setDataFieldsFinish st).snd.metaFields = st.metaFields := by
  cases h : st.outputData <;> simp [setDataFieldsFinish, h]

/-- Helper: the common tail of `setDataFields` never touches the metadata
length. -/
theorem setDataFieldsFinish_metaLength (st : MutexState) :
    (setDataFieldsFinish st).snd.metaLength = st.metaLength := by
  cases h : st.outputData <;> simp [setDataFieldsFinish, h]

/-- Helper: the common tail of `setDataFields` never touches
`_outputDataFieldsLen`. -/
theorem setDataFieldsFinish_fieldsLen (st : MutexState) :
    (setDataFieldsFinish st).snd.outputDataFieldsLen = st.outputDataFieldsLen := by
  cases h : st.outputData <;> simp [setDataFieldsFinish, h]

/-- Helper: `setDataFields` never touches the metadata fields. -/
theorem setDataFields_snd_metaFields (st : MutexState)
    (arg : Option (List MutexMetaField)) :
    (setDataFields st arg).snd.metaFields = st.metaFields := by
  cases arg with
  | none =>
    simp only [setDataFields]
    split
    · rfl
    · exact setDataFieldsFinish_metaFields st
  | some fs =>
    simp only [setDataFields]
    split
    · rfl
    · split
      · simp [setDataFieldsFinish_metaFields]
      · split
        · rfl
        · simp [setDataFieldsFinish_metaFields]

/-- Helper: `setDataFields` never touches the metadata length. -/
theorem setDataFields_snd_metaLength (st : MutexState)
    (arg : Option (List MutexMetaField)) :
    (setDataFields st arg).snd.metaLength = st.metaLength := by
  cases arg with
  | none =>
    simp only [setDataFields]
    split
    · rfl
    · exact setDataFieldsFinish_metaLength st
  | some fs =>
    simp only [setDataFields]
    split
    · rfl
    · split
      · simp [setDataFieldsFinish_metaLength]
      · split
        · rfl
        · simp [setDataFieldsFinish_metaLength]

/-- Helper: a successful `setDataFields` with explicit fields records their
summed length into `_outputDataFieldsLen`. -/
theorem setDataFields_some_fieldsLen (st st' : MutexState)
    (fs : List MutexMetaField) (h : setDataFields st (some fs) = (true, st')) :
    st'.outputDataFieldsLen = sumLen fs := by
  simp only [setDataFields] at h
  split at h
  · simp at h
  · split at h
    · have h2 := congrArg (fun p => p.snd.outputDataFieldsLen) h
      simpa [setDataFieldsFinish_fieldsLen] using h2.symm
    · split at h
      · simp at h
      · have h2 := congrArg (fun p => p.snd.outputDataFieldsLen) h
        simpa [setDataFieldsFinish_fieldsLen] using h2.symm

/-- Helper: the conditional `setDataFields()` refresh at the end of
`setMetaFields` never touches the metadata fields. -/
theorem condRefresh_metaFields (s : MutexState) :
    (if s.outputData.isSome then (setDataFields s none).snd else s).metaFields
      = s.metaFields := by
  split
  · exact setDataFields_snd_metaFields s none
  · rfl

/-- Helper: the conditional `setDataFields()` refresh at the end of
`setMetaFields` never touches the metadata length. -/
theorem condRefresh_metaLength (s : MutexState) :
    (if s.outputData.isSome then (setDataFields s none).snd else s).metaLength
      = s.metaLength := by
  split
  · exact setDataFields_snd_metaLength s none
  · rfl

/-- Helper: a successful `setMetaFields` stores the supplied fields verbatim,
records their summed length, and certifies that every field uses the 4-byte
element width. -/
theorem setMetaFields_true_spec (st st' : MutexState)
    (fields : List MutexMetaField) (h : setMetaFields st fields = (true, st')) :
    st'.metaFields = fields ∧ st'.metaLength = sumLen fields ∧
    allWidth4 fields = true := by
  simp only [setMetaFields] at h
  split at h
  · simp at h
  case isFalse hw =>
  split at h
  · simp at h
  · rw [Prod.mk.injEq] at h
    obtain ⟨-, rfl⟩ := h
    refine ⟨?_, ?_, by simpa using hw⟩
    · rw [condRefresh_metaFields]
      split <;> rfl
    · rw [condRefresh_metaLength]
      split <;> rfl

/-- Claim C6: after `setMetaFields(M)`, `setDataFields(F)` and
`setDataArrays` with `k` arrays of payload length `L` all succeed, the
instance's total 32-bit length is `1 + len(M) + k * (len(F) + L)`. -/
theorem totalLength_after_setup (st st1 st2 st3 : MutexState)
    (M F : List MutexMetaField) (k L : Nat)
    (h1 : setMetaFields st M = (true, st1))
    (h2 : setDataFields st1 (some F) = (true, st2))
    (h3 : setDataArrays st2 (List.replicate k L) = (true, st3)) :
    totalLength st3 = 1 + (sumLen M : Int) + (k : Int) * ((sumLen F : Int) + (L : Int)) := by
  have e1 := (setMetaFields_true_spec st st1 M h1).2.1
  have e2m : st2.metaLength = st1.metaLength := by
    have := setDataFields_snd_metaLength st1 (some F)
    rw [h2] at this
    exact this
  have e2f := setDataFields_some_fieldsLen st1 st2 F h2
  have e3 := setDataArrays_totalLength st2 st3 (List.replicate k L) h3
  rw [e3, e2m, e1, e2f]
  simp only [List.map_replicate, List.sum_replicate, nsmul_eq_mul,
    META_START_POS, LOCK_POS, LOCK_LENGTH]
  push_cast
  ring

/-- Witness for C6: the worked layout example — one meta field of length 2,
one data field of length 1, two arrays of payload length 10 over a 1000-byte
buffer — has total length `25 = 1 + 2 + 2 * (1 + 10)`. -/
theorem totalLength_after_setup_witness : totalLength demoState3 = 25 := by
  have h := totalLength_after_setup demoState0 demoState1 demoState2 demoState3
    demoMetaFields demoDataFields 2 10 (by decide) (by decide) (by decide)
  simpa using h

/-- Claim C4 (evaluating the code at the failing input): on a mutex with
buffer start 0 and a single meta field at position 0,
`waitForFieldUpdate('meta', 0)` parks its wait on buffer word
`BUFFER_START + position = 0` — the lock word — while
`setMetaFieldValue('a', ...)` notifies buffer word
`META_START_POS + position = 1`.  The watched word and the notified word
differ, so the update cannot wake the waiter and the wait can only time out,
contradicting the claimed wait/notify agreement. -/
theorem waitForFieldUpdate_meta_watches_wrong_word :
    waitForMetaFieldWordIndex metaWaitState 0 = some 0 ∧
    notifyMetaFieldWordIndex metaWaitState "a" = some 1 ∧
    (0 : Int) ≠ 1 := by
  refine ⟨by decide, by decide, by decide⟩

/-- Counterexample to claim C5 as stated: on a fresh mutex holding one meta
field of length 3 (so buffer start 0), `initialize` with a 2-byte buffer and
start position 5 fails — but the instance's buffer start position has been
changed from 0 to 5, contradicting "mutates no instance state (in particular
... the buffer start position are unchanged)". -/
theorem initMutex_mutates_bufferStart_on_failure :
    (initMutex c5State 2 5).fst = false ∧
    (initMutex c5State 2 5).snd.bufferStart = 5 ∧
    c5State.bufferStart = 0 := by
  refine ⟨by decide, by decide, by decide⟩

/-- Claim C5 (amended): `initialize` on an already-initialized mutex returns
`false` with no mutation at all; on an unbound mutex whose capacity check
fails (buffer byte length below the computed end index), it returns `false`
and leaves the buffer unbound — but the buffer start position has already
been overwritten with the supplied non-negative start position. -/
theorem initMutex_failure_spec (st : MutexState) (byteLength : Nat)
    (startPosition : Int) :
    (st.buffer.isSome → initMutex st byteLength startPosition = (false, st)) ∧
    (st.buffer = none → 0 ≤ startPosition →
      bufferTooSmall byteLength
        (initRequiredEnd { st with bufferStart := startPosition }) = true →
      initMutex st byteLength startPosition
        = (false, { st with bufferStart := startPosition })) := by
  constructor
  · intro h
    simp [initMutex, h]
  · intro hb hs hsmall
    rw [hb] at hsmall
    simp [initMutex, hb, hs, hsmall]

/-- Witness for C5 (amended) at concrete inputs: an already-bound mutex
rejects re-initialization unchanged, and the length-3 example rejects a
2-byte buffer with its start position mutated to 5. -/
theorem initMutex_failure_spec_witness :
    initMutex { emptyState with buffer := some 64 } 100 0
      = (false, { emptyState with buffer := some 64 }) ∧
    initMutex c5State 2 5 = (false, { c5State with bufferStart := 5 }) := by
  refine ⟨(initMutex_failure_spec { emptyState with buffer := some 64 } 100 0).1 (by decide), ?_⟩
  exact (initMutex_failure_spec c5State 2 5).2 (by decide) (by decide) (by decide)

/-- Counterexample to claim C7 as stated: `setMetaFields` with a single meta
field whose position is unassigned (`-1`) succeeds but leaves the stored
position at `-1` instead of packing it sequentially to `0`. -/
theorem setMetaFields_keeps_unassigned_position :
    (setMetaFields emptyState
      [{ name := "a", length := 1, position := UNASSIGNED_VALUE, bytesPerElement := 4 }]).fst
      = true ∧
    ((setMetaFields emptyState
      [{ name := "a", length := 1, position := UNASSIGNED_VALUE, bytesPerElement := 4 }]).snd.metaFields.map
        (fun f => f.position)) = [UNASSIGNED_VALUE] ∧
    UNASSIGNED_VALUE ≠ (0 : Int) := by
  refine ⟨by decide, by decide, by decide⟩

/-- Claim C7 (amended): a successful `setMetaFields(fields)` validates that
every field's element width equals the 4-byte atomic word width and stores
the supplied fields verbatim — positions, including unassigned ones, are left
exactly as given; the sequential position assignment exists only in
`setDataFields` for the data fields. -/
theorem setMetaFields_verbatim_and_validated (st st' : MutexState)
    (fields : List MutexMetaField) (h : setMetaFields st fields = (true, st')) :
    st'.metaFields = fields ∧ allWidth4 fields = true := by
  have hs := setMetaFields_true_spec st st' fields h
  exact ⟨hs.1, hs.2.2⟩

/-- Witness for C7 (amended): the unassigned-position example is stored
verbatim and passes width validation. -/
theorem setMetaFields_verbatim_and_validated_witness :
    (setMetaFields emptyState
      [{ name := "b", length := 2, position := -1, bytesPerElement := 4 }]).snd.metaFields
      = [{ name := "b", length := 2, position := -1, bytesPerElement := 4 }] ∧
    allWidth4 [{ name := "b", length := 2, position := -1, bytesPerElement := 4 }] = true := by
  exact setMetaFields_verbatim_and_validated emptyState _
    [{ name := "b", length := 2, position := -1, bytesPerElement := 4 }] (by decide)

/-- Helper: writing words at indices at or above `i` does not change the
buffer below `i`. -/
theorem writeWords_getD_lt (vs : List Int) :
    ∀ (buf : List Int) (i j : Nat), j < i →
      (writeWords buf i vs).getD j 0 = buf.getD j 0 := by
  induction vs with
  | nil => intro buf i j h; rfl
  | cons x xs ih =>
    intro buf i j h
    show (writeWords (buf.set i x) (i + 1) xs).getD j 0 = buf.getD j 0
    rw [ih (buf.set i x) (i + 1) j (by omega)]
    simp [List.getD_eq_getElem?_getD, List.getElem?_set_ne (by omega : i ≠ j)]

/-- Helper: the first word written by `writeWords` lands at the start index,
provided it is inside the buffer. -/
theorem writeWords_getD_head (buf : List Int) (i : Nat) (x : Int) (xs : List Int)
    (hi : i < buf.length) :
    (writeWords buf i (x :: xs)).getD i 0 = x := by
  show (writeWords (buf.set i x) (i + 1) xs).getD i 0 = x
  rw [writeWords_getD_lt xs (buf.set i x) (i + 1) i (by omega)]
  simp [List.getD_eq_getElem?_getD, List.getElem?_set_eq_of_lt x hi]

/-- Counterexample to claim C8 as stated: with the buffer `[0, 42]` (lock
word plus one meta word), the getter for field "a" returns the subarray view
at word 1; reading it gives `42`; after `setMetaFieldValue` writes `7` the
buffer is `[0, 7]` and reading the previously returned view now gives `7` —
the write performed after the getter returned altered the previously returned
value, so the getter result aliases the shared buffer rather than being a
copy. -/
theorem getMetaFieldValue_aliases_buffer :
    getMetaFieldValueView
      [{ name := "a", length := 1, position := 0, bytesPerElement := 4 }]
      { offset := 1, length := 1 } "a" = some { offset := 1, length := 1 } ∧
    viewRead [0, 42] { offset := 1, length := 1 } 0 = 42 ∧
    setMetaFieldValueWrite [0, 42] { offset := 1, length := 1 }
      [{ name := "a", length := 1, position := 0, bytesPerElement := 4 }] "a" [7]
      = some [0, 7] ∧
    viewRead [0, 7] { offset := 1, length := 1 } 0 = 7 ∧
    (7 : Int) ≠ 42 := by
  refine ⟨by decide, by decide, by decide, by decide, by decide⟩

/-- Claim C8 (amended): the array returned by the meta-field getter is the
`subarray` view at `metaView.offset + field.position` aliasing the shared
buffer, not a copy: a field write performed after the getter returns is
visible through the previously returned array — reading it yields the newly
written value. -/
theorem getMetaFieldValue_view_semantics (fields : List MutexMetaField)
    (metaView : SubView) (fieldName : String) (f : MutexMetaField)
    (buf buf' : List Int) (x : Int) (xs : List Int)
    (hf : findMetaField fields fieldName = some f)
    (hw : setMetaFieldValueWrite buf metaView fields fieldName (x :: xs) = some buf')
    (hb : metaView.offset + f.position.toNat < buf.length) :
    getMetaFieldValueView fields metaView fieldName
      = some { offset := metaView.offset + f.position.toNat, length := f.length } ∧
    viewRead buf' { offset := metaView.offset + f.position.toNat, length := f.length } 0
      = x := by
  constructor
  · simp [getMetaFieldValueView, hf]
  · simp only [setMetaFieldValueWrite, hf] at hw
    split at hw
    · rw [Option.some.injEq] at hw
      subst hw
      simpa [viewRead, readWord] using writeWords_getD_head buf _ x xs hb
    · simp at hw

/-- Witness for C8 (amended) at the concrete counterexample inputs. -/
theorem getMetaFieldValue_view_semantics_witness :
    getMetaFieldValueView
      [{ name := "a", length := 1, position := 0, bytesPerElement := 4 }]
      { offset := 1, length := 1 } "a" = some { offset := 1, length := 1 } ∧
    viewRead [0, 7] { offset := 1, length := 1 } 0 = 7 := by
  have h := getMetaFieldValue_view_semantics
    [{ name := "a", length := 1, position := 0, bytesPerElement := 4 }]
    { offset := 1, length := 1 } "a"
    { name := "a", length := 1, position := 0, bytesPerElement := 4 }
    [0, 42] [0, 7] 7 [] (by decide) (by decide) (by decide)
  simpa using h

/-- Claim C10: `setInputMutexProperties` with a `null` buffer returns `false`
and leaves the entire input-side state (input meta fields, input data fields,
input views, read-lock view) untouched; with a non-null buffer it returns
`true`. -/
theorem setInputMutexProperties_spec (st : InputState) (input : MutexExportProps) :
    (input.buffer = none → setInputMutexProperties st input = (false, st)) ∧
    (input.buffer.isSome → (setInputMutexProperties st input).fst = true) := by
  constructor
  · intro h
    simp [setInputMutexProperties, h]
  · intro h
    obtain ⟨b, hb⟩ := Option.isSome_iff_exists.mp h
    cases input.data <;> simp [setInputMutexProperties, hb]

/-- Witness for C10 at concrete inputs: a descriptor with a `null` buffer is
rejected without mutation, one with a buffer is accepted. -/
theorem setInputMutexProperties_spec_witness :
    setInputMutexProperties emptyInputState
      { buffer := none, bufferStart := 0, data := none,
        meta := { fields := [], length := 0, position := -1 } }
      = (false, emptyInputState) ∧
    (setInputMutexProperties emptyInputState
      { buffer := some 64, bufferStart := 0, data := none,
        meta := { fields := [], length := 0, position := -1 } }).fst = true := by
  constructor
  · exact (setInputMutexProperties_spec emptyInputState _).1 rfl
  · exact (setInputMutexProperties_spec emptyInputState _).2 rfl

end IOMutexModel
